import Mathlib

/-!
Verification development for the iceberg-rust table-format catalog library.

The definitions below are a shallow embedding of the repository's core
subsystems: the `Namespace` value type (src/iceberg-rust/src/catalog/namespace.rs),
the transaction commit protocol (src/iceberg-rust/src/table/transaction/mod.rs)
and the storage-table refresh and staleness protocol
(src/iceberg-rust/src/materialized_view/storage_table.rs).

Rust strings that undergo byte-level encoding (the namespace codec) are
modelled as lists of byte values (Nat, with an explicit bound of 256 where it
matters); strings that are only compared or concatenated are modelled as Lean
strings.  Fallible Rust functions returning anyhow or Error results are
modelled with an explicit result type.  Types and functions whose source is
not part of the supplied fragment (Table, Operation::execute, current_snapshot,
find_relations, the serde codecs) are modelled from the spec and marked as
such in their doc comments.
-/

/-- Error kinds of the library (a condensation of the error enums used by the
source: format and validation errors, optimistic-concurrency conflicts,
missing objects and decode failures). -/
inductive Error where
  | InvalidFormat (msg : String)
  | Conflict (msg : String)
  | NotFound (msg : String)
  | Decode (msg : String)
deriving DecidableEq

/-- Result type standing for the Rust Result values returned by the library. -/
inductive Res (α : Type) where
  | ok (a : α)
  | err (e : Error)
deriving DecidableEq

/- ---------------------------------------------------------------------------
Byte-level codec used by Namespace::url_encode / from_url_encoded.
These definitions embed the behaviour of the url crate's
form_urlencoded byte_serialize and parse, operating on byte values.
--------------------------------------------------------------------------- -/

/-- Bytes that form_urlencoded byte_serialize leaves unchanged:
alphanumerics and the characters * - . _ . -/
def isSafeByte (b : Nat) : Bool :=
  (48 ≤ b && b ≤ 57) || (65 ≤ b && b ≤ 90) || (97 ≤ b && b ≤ 122) ||
    b == 42 || b == 45 || b == 46 || b == 95

/-- Uppercase hex digit character for a value below 16. -/
def hexUpper (x : Nat) : Nat :=
  if x < 10 then 48 + x else 55 + x

/-- Value of a hex digit character, accepting both cases. -/
def hexVal (c : Nat) : Option Nat :=
  if 48 ≤ c ∧ c ≤ 57 then some (c - 48)
  else if 65 ≤ c ∧ c ≤ 70 then some (c - 55)
  else if 97 ≤ c ∧ c ≤ 102 then some (c - 87)
  else none

/-- Per-byte serialization of form_urlencoded byte_serialize: safe bytes kept,
space becomes plus, every other byte is percent-encoded in uppercase hex. -/
def encodeByte (b : Nat) : List Nat :=
  if isSafeByte b then [b]
  else if b = 32 then [43]
  else [37, hexUpper (b / 16), hexUpper (b % 16)]

/-- form_urlencoded byte_serialize over a whole byte string. -/
def byteSerialize : List Nat → List Nat
  | [] => []
  | b :: rest => encodeByte b ++ byteSerialize rest

/-- Combined plus-to-space replacement and percent-decoding performed by
form_urlencoded parse on a key: a plus yields a space; a percent sign followed
by two hex digits yields the denoted byte; a percent sign not followed by two
hex digits is kept literally; every other byte is kept. -/
def percentDecodePlus : List Nat → List Nat
  | [] => []
  | c :: hi :: lo :: rest =>
    if c = 43 then 32 :: percentDecodePlus (hi :: lo :: rest)
    else if c = 37 then
      match hexVal hi, hexVal lo with
      | some h, some l => (16 * h + l) :: percentDecodePlus rest
      | _, _ => 37 :: percentDecodePlus (hi :: lo :: rest)
    else c :: percentDecodePlus (hi :: lo :: rest)
  | c :: rest =>
    if c = 43 then 32 :: percentDecodePlus rest
    else if c = 37 then 37 :: percentDecodePlus rest
    else c :: percentDecodePlus rest

/-- First key produced by form_urlencoded parse: chunks are separated by the
ampersand byte, empty chunks are skipped, and the key of a chunk is its
percent-decoded part before the first equals byte. -/
def firstPair : List Nat → Option (List Nat)
  | [] => none
  | c :: rest =>
    if c = 38 then firstPair rest
    else some (percentDecodePlus
      ((c :: rest).takeWhile (fun b => !(b == 38) && !(b == 61))))

/-- Rust str split on a one-byte separator: splitting the empty string yields
one empty piece, and every separator occurrence starts a new piece. -/
def splitSep (sep : Nat) : List Nat → List (List Nat)
  | [] => [[]]
  | c :: rest =>
    match splitSep sep rest with
    | [] => [[c]]
    | h :: t => if c = sep then [] :: h :: t else (c :: h) :: t

/-- Rust slice join with a one-byte separator, as used by
Namespace::url_encode with the unit-separator byte. -/
def joinSep (sep : Nat) : List (List Nat) → List Nat
  | [] => []
  | [l] => l
  | l :: l' :: rest => l ++ sep :: joinSep sep (l' :: rest)

/- ---------------------------------------------------------------------------
Namespace (src/iceberg-rust/src/catalog/namespace.rs). Levels are byte strings.
--------------------------------------------------------------------------- -/

/-- Namespace value type: an ordered sequence of levels, each a byte string. -/
structure Namespace where
  levels : List (List Nat)
deriving DecidableEq

/-- Namespace::try_new: fails when any level is the empty string, otherwise
holds exactly the given sequence. -/
def Namespace.try_new (ls : List (List Nat)) : Res Namespace :=
  if ls.any (fun l => l.isEmpty) then .err (.InvalidFormat ("namespace sequence"))
  else .ok ⟨ls⟩

/-- Namespace::empty: the distinguished empty namespace. -/
def Namespace.empty : Namespace := ⟨[]⟩

/-- Namespace::url_encode: join the levels with the unit-separator byte 31 and
serialize the result with form_urlencoded byte_serialize. -/
def Namespace.url_encode (ns : Namespace) : List Nat :=
  byteSerialize (joinSep 31 ns.levels)

/-- Namespace::from_url_encoded: take the first key of form_urlencoded parse
(failing when there is none) and split it on the unit-separator byte 31.
No validation of the resulting levels is performed. -/
def Namespace.from_url_encoded (s : List Nat) : Res Namespace :=
  match firstPair s with
  | none => .err (.InvalidFormat ("Namespace is empty"))
  | some key => .ok ⟨splitSep 31 key⟩

/- ---------------------------------------------------------------------------
Table metadata and the transaction commit protocol
(src/iceberg-rust/src/table/transaction/mod.rs).  The Table value type,
Operation::execute, new_snapshot, increment_sequence_number and
current_snapshot are not part of the supplied source fragment and are
modelled from the spec where noted.
--------------------------------------------------------------------------- -/

/-- Snapshot: immutable record with an id, a free-form string-keyed summary
map (summary.other in the source) and the manifest of registered data files. -/
structure Snapshot where
  snapshot_id : Int
  summary : List (String × String)
  manifest : List String
deriving DecidableEq

/-- TableMetadata: the external value type consumed by the commit protocol,
with the fields the core reads and writes: format version, location root,
schema set with current schema id, partition-spec set with default spec id,
the last sequence number, and the snapshots with the current snapshot id. -/
structure TableMetadata where
  format_version : Nat
  location : String
  schemas : List Nat
  current_schema_id : Nat
  partition_specs : List Int
  default_spec_id : Int
  last_sequence_number : Nat
  snapshots : List Snapshot
  current_snapshot_id : Option Int
deriving DecidableEq

/-- Modelled from the spec: current_snapshot on TableMetadata returns the
current (or named-branch) snapshot, if any; branch resolution itself is not
part of the supplied fragment, so the branch argument selects the designated
current snapshot. -/
def TableMetadata.current_snapshot (m : TableMetadata) (_branch : Option String) :
    Option Snapshot :=
  m.current_snapshot_id.bind
    (fun i => m.snapshots.find? (fun s => decide (s.snapshot_id = i)))

/-- Table: in-memory handle bundling the identifier, the current metadata and
the metadata's storage location (the catalog and object-store references are
carried separately by the world state below). -/
structure Table where
  identifier : String
  metadata : TableMetadata
  metadata_location : String
deriving DecidableEq

/-- Modelled from the spec: Table::new_snapshot creates a new Snapshot with a
fresh id and an initially empty summary and makes it the current snapshot.
The fresh id is passed in explicitly. -/
def Table.new_snapshot (t : Table) (freshId : Int) : Table :=
  { t with metadata :=
      { t.metadata with
          snapshots := t.metadata.snapshots ++ [⟨freshId, [], []⟩],
          current_snapshot_id := some freshId } }

/-- Operation: the tagged variants queued inside a transaction, as built by
update_schema, update_spec, append and update_properties in the source. -/
inductive Operation where
  | UpdateSchema (schema : Nat)
  | UpdateSpec (spec_id : Int)
  | NewAppend (paths : List String)
  | UpdateProperties (entries : List (String × String))
deriving DecidableEq

/-- Insert a key into a string map, overwriting any existing value for it. -/
def setKey (kvs : List (String × String)) (k v : String) : List (String × String) :=
  if kvs.any (fun p => decide (p.1 = k)) then
    kvs.map (fun p => if p.1 = k then (k, v) else p)
  else kvs ++ [(k, v)]

/-- Lookup in a string map. -/
def lookupKey (kvs : List (String × String)) (k : String) : Option String :=
  (kvs.find? (fun p => decide (p.1 = k))).map (fun p => p.2)

/-- Modelled from the spec: Operation::execute applies one queued operation to
the in-memory metadata.  UpdateSchema adds the schema and repoints the current
schema id; UpdateSpec repoints the default spec id to an existing spec id and
fails with a format error for an unknown id; NewAppend registers the given
data files into the active snapshot's manifest; UpdateProperties merges each
key-value pair into the active snapshot's summary, overwriting existing keys. -/
def Operation.execute (op : Operation) (m : TableMetadata) : Res TableMetadata :=
  match op with
  | .UpdateSchema sid =>
    .ok { m with schemas := m.schemas ++ [sid], current_schema_id := sid }
  | .UpdateSpec i =>
    if m.partition_specs.any (fun j => decide (j = i)) then
      .ok { m with default_spec_id := i }
    else .err (.InvalidFormat ("unknown partition spec id"))
  | .NewAppend paths =>
    match m.current_snapshot_id with
    | some cid =>
      .ok { m with snapshots := m.snapshots.map (fun s =>
        if s.snapshot_id = cid then { s with manifest := s.manifest ++ paths } else s) }
    | none => .err (.InvalidFormat ("no active snapshot"))
  | .UpdateProperties entries =>
    match m.current_snapshot_id with
    | some cid =>
      .ok { m with snapshots := m.snapshots.map (fun s =>
        if s.snapshot_id = cid then
          { s with summary := entries.foldl (fun acc kv => setKey acc kv.1 kv.2) s.summary }
        else s) }
    | none => .err (.InvalidFormat ("no active snapshot"))

/-- Whether an operation is a NewAppend, as tested by the commit protocol to
decide whether a new snapshot is needed. -/
def Operation.isNewAppend : Operation → Bool
  | .NewAppend _ => true
  | _ => false

/-- Sequential execution of the queued operations against the in-memory
metadata, mirroring the fold in commit: execution short-circuits on the first
failing operation, and the metadata retains the effects of the operations
that already succeeded. -/
def execOps : List Operation → TableMetadata → (Option Error × TableMetadata)
  | [], m => (none, m)
  | op :: rest, m =>
    match op.execute m with
    | .ok m' => execOps rest m'
    | .err e => (some e, m)

/-- Object store state: immutable metadata files keyed by location.  The
serialization of metadata to bytes is modelled as the identity, so a stored
object is the metadata value itself. -/
def Store := List (String × TableMetadata)

/-- Object store put: append-only write that must never overwrite an existing
location (the external contract of the store). -/
def putObject (store : Store) (loc : String) (m : TableMetadata) : Res Store :=
  if (store : List (String × TableMetadata)).any (fun p => decide (p.1 = loc)) then
    .err (.InvalidFormat ("location already exists"))
  else .ok (((loc, m) :: store : List (String × TableMetadata)))

/-- Object store get. -/
def getObject (store : Store) (loc : String) : Option TableMetadata :=
  ((store : List (String × TableMetadata)).find? (fun p => decide (p.1 = loc))).map
    (fun p => p.2)

/-- Catalog state for one table identifier: the location of the
currently-active metadata file. -/
structure CatalogState where
  pointer : String
deriving DecidableEq

/-- Catalog update_table: the external compare-and-swap contract.  The swap
succeeds only if the stored pointer still equals the expected previous
location; on success the catalog returns the table loaded from the new
location. -/
def updateTable (cat : CatalogState) (store : Store) (identifier newLoc prevLoc : String) :
    Res (CatalogState × Table) :=
  if cat.pointer = prevLoc then
    match getObject store newLoc with
    | some m => .ok (⟨newLoc⟩, ⟨identifier, m, newLoc⟩)
    | none => .err (.NotFound ("metadata file"))
  else .err (.Conflict ("pointer moved"))

/-- World state seen by a commit: the object store and the catalog pointer of
the table being committed. -/
structure World where
  store : Store
  catalog : CatalogState

/-- Outcome of a commit: the returned result, the caller's Table handle after
the call (the source mutates the table through a mutable reference, so the
handle reflects every in-memory mutation whether or not the commit succeeded),
the world after the call, and the catalog state after each catalog call made. -/
structure CommitOutcome where
  result : Res Unit
  table : Table
  world : World
  catalogCalls : List CatalogState

/-- The new, uniquely named metadata file location produced by a commit: the
table's metadata directory, the new sequence number and a fresh random
identifier, so concurrent commits never collide on a write target. -/
def metadataFileLocation (m : TableMetadata) (uuid : String) : String :=
  m.location ++ "/metadata/" ++ toString m.last_sequence_number ++ "-" ++ uuid
    ++ ".metadata.json"

/-- Steps 1 and 2 of commit: increment the sequence number, then create a new
snapshot when any queued operation is an append. -/
def commitStage (t : Table) (ops : List Operation) (freshId : Int) : Table :=
  let t1 := { t with metadata :=
    { t.metadata with last_sequence_number := t.metadata.last_sequence_number + 1 } }
  if ops.any (fun op => op.isNewAppend) then t1.new_snapshot freshId else t1

/-- TableTransaction::commit, embedded from the source: stage the metadata
(steps 1 and 2), execute the queued operations sequentially (step 3), write
the new metadata to a fresh uniquely-named location (step 4), and ask the
catalog to swap the pointer from the previous location (step 5); on success
replace the caller's handle with the table returned by the catalog (step 6).
The fresh transaction uuid and snapshot id are passed in explicitly. -/
def commitTransaction (t : Table) (ops : List Operation) (w : World)
    (uuid : String) (freshId : Int) : CommitOutcome :=
  let staged := commitStage t ops freshId
  match execOps ops staged.metadata with
  | (some e, m') =>
    { result := .err e, table := { staged with metadata := m' },
      world := w, catalogCalls := [] }
  | (none, m') =>
    let t3 : Table := { staged with metadata := m' }
    let newLoc := metadataFileLocation m' uuid
    match putObject w.store newLoc m' with
    | .err e => { result := .err e, table := t3, world := w, catalogCalls := [] }
    | .ok store' =>
      match updateTable w.catalog store' t.identifier newLoc t3.metadata_location with
      | .err e =>
        { result := .err e, table := t3,
          world := { store := store', catalog := w.catalog },
          catalogCalls := [w.catalog] }
      | .ok (cat', newTable) =>
        { result := .ok (), table := newTable,
          world := { store := store', catalog := cat' },
          catalogCalls := [cat'] }

/- ---------------------------------------------------------------------------
StorageTable refresh and staleness protocol
(src/iceberg-rust/src/materialized_view/storage_table.rs).
--------------------------------------------------------------------------- -/

/-- The two well-known summary keys that persist the storage-table
bookkeeping inside a snapshot summary. -/
def VERSION_KEY : String := "version-id"

/-- Summary key holding the serialized base-table records. -/
def BASE_TABLES_KEY : String := "base-tables"

/-- BaseTable record: the identifier of an upstream table plus the snapshot id
observed when the view was last rebuilt. -/
structure BaseTable where
  identifier : String
  snapshot_id : Int
deriving DecidableEq

/-- StorageTableState: the three-way staleness classification. -/
inductive StorageTableState where
  | Fresh
  | Outdated (snapshot_id : Int)
  | Invalid
deriving DecidableEq

/-- StorageTable: a table whose contents are derived from a defining query. -/
structure StorageTableModel where
  table : Table
  sql : String
deriving DecidableEq

/-- Split a character list on a separator character; splitting the empty list
yields one empty piece, matching Rust str split. -/
def splitChar (sep : Char) : List Char → List (List Char)
  | [] => [[]]
  | c :: rest =>
    match splitChar sep rest with
    | [] => [[c]]
    | h :: t => if c = sep then [] :: h :: t else (c :: h) :: t

/-- Join character lists with a separator character. -/
def joinChar (sep : Char) : List (List Char) → List Char
  | [] => []
  | [l] => l
  | l :: l' :: rest => l ++ sep :: joinChar sep (l' :: rest)

/-- Parse a nonempty all-digit character list as a natural number. -/
def parseNatChars (cs : List Char) : Option Nat :=
  if cs.isEmpty || cs.any (fun c => decide (c < '0') || decide ('9' < c)) then none
  else some (cs.foldl (fun acc c => 10 * acc + (c.toNat - 48)) 0)

/-- Parse a decimal integer with an optional leading minus sign. -/
def parseIntChars (cs : List Char) : Option Int :=
  match cs with
  | '-' :: rest => (parseNatChars rest).map (fun n => -(n : Int))
  | _ => (parseNatChars cs).map (fun n => (n : Int))

/-- Modelled from the spec: the serde serialization of a version id (an i64),
embedded as its decimal rendering. -/
def encodeVersionId (v : Int) : String := toString v

/-- Modelled from the spec: the serde deserialization of a version id; fails
on input that does not denote an integer. -/
def decodeVersionId (s : String) : Res Int :=
  match parseIntChars s.data with
  | some v => .ok v
  | none => .err (.Decode s)

/-- Modelled from the spec: serialization of a list of BaseTable records into
a single summary string, embedded as a simple separator-based rendering
(entries joined by semicolons, identifier and snapshot id joined by a comma). -/
def encodeBaseTables (l : List BaseTable) : String :=
  String.intercalate (";") (l.map (fun b => b.identifier ++ (",") ++ toString b.snapshot_id))

/-- Modelled from the spec: deserialization of one BaseTable record. -/
def decodeBaseTable (s : String) : Res BaseTable :=
  match splitChar (',') s.data with
  | [i, n] =>
    match parseIntChars n with
    | some v => .ok ⟨⟨i⟩, v⟩
    | none => .err (.Decode s)
  | _ => .err (.Decode s)

/-- Collect a list of results, failing on the first error. -/
def collectRes {α : Type} : List (Res α) → Res (List α)
  | [] => .ok []
  | .ok a :: rest =>
    match collectRes rest with
    | .ok l => .ok (a :: l)
    | .err e => .err e
  | .err e :: _ => .err e

/-- Modelled from the spec: deserialization of the base-tables summary value;
a malformed record propagates as a decode error. -/
def decodeBaseTables (s : String) : Res (List BaseTable) :=
  if s = "" then .ok []
  else collectRes ((splitChar (';') s.data).map (fun cs => decodeBaseTable ⟨cs⟩))

/-- Tabular: the polymorphic result of a catalog load.  A materialized view
carries the result of resolving its own storage table, as performed by the
recursive resolution in base_tables. -/
inductive Tabular where
  | table (t : Table)
  | matView (resolved : Res Table)
  | other
deriving DecidableEq

/-- Environment of external collaborators consumed by the staleness check: the
catalog load primitive and the relation extractor over the defining query. -/
structure CatalogEnv where
  loadTable : String → Res Tabular
  findRelations : String → Res (List String)

/-- Result type for base_tables: alongside success and error, a distinguished
outcome marking a Rust panic (the unwrap on a missing current snapshot). -/
inductive PResult (α : Type) where
  | ok (a : α)
  | err (e : Error)
  | panic
deriving DecidableEq

/-- Remainder of a character list after a required leading tag, if the tag is
present. -/
def dropLeadingTag : List Char → List Char → Option (List Char)
  | [], rest => some rest
  | _ :: _, [] => none
  | t :: ts, c :: cs => if c = t then dropLeadingTag ts cs else none

/-- Rust str trim_start_matches for the literal tag "identifier:", which
removes every repetition of the leading tag. -/
def stripIdentifierTag (s : String) : String :=
  ⟨stripTagFuel s.data.length s.data⟩
where
  stripTagFuel : Nat → List Char → List Char
    | 0, cs => cs
    | n + 1, cs =>
      match dropLeadingTag ("identifier:").data cs with
      | some rest => stripTagFuel n rest
      | none => cs

/-- The identifier munging applied to relation-extractor results: drop the
first dot-separated segment and rejoin the rest with dots. -/
def dropCatalogSegment (s : String) : String :=
  ⟨joinChar ('.') ((splitChar ('.') s.data).drop 1)⟩

/-- StorageTable::version_id, embedded from the source: read the version-id
bookkeeping key from the current snapshot's summary; absence of a current
snapshot or of the key yields no recorded version rather than an error, and a
present key is deserialized (propagating decode failures). -/
def StorageTableModel.version_id (st : StorageTableModel) (branch : Option String) :
    Res (Option Int) :=
  match st.table.metadata.current_snapshot branch with
  | none => .ok none
  | some snap =>
    match lookupKey snap.summary VERSION_KEY with
    | none => .ok none
    | some json =>
      match decodeVersionId json with
      | .ok v => .ok (some v)
      | .err e => .err e

/-- Dependency-list discovery of base_tables: the fast path decodes the
base-tables bookkeeping key of the current snapshot into records carrying a
recorded snapshot id; the fallback parses the defining query text and yields
identifiers with no recorded snapshot id. -/
def depsOf (st : StorageTableModel) (env : CatalogEnv) (branch : Option String) :
    Res (List (String × Option Int)) :=
  match (st.table.metadata.current_snapshot branch).bind
      (fun s => lookupKey s.summary BASE_TABLES_KEY) with
  | some json =>
    match decodeBaseTables json with
    | .ok bts => .ok (bts.map (fun b => (b.identifier, some b.snapshot_id)))
    | .err e => .err e
  | none =>
    match env.findRelations st.sql with
    | .ok idents => .ok (idents.map (fun i => (dropCatalogSegment i, none)))
    | .err e => .err e

/-- Resolution and classification of one dependency, embedded from the body of
the stream in base_tables: load the (tag-stripped) identifier through the
catalog, resolve a materialized view to its storage table, then classify.  A
dependency carrying a recorded snapshot id unwraps the base table's current
snapshot without a None check — a missing current snapshot is a panic — and is
classified Fresh when the live id equals the recorded id, Invalid when the
recorded id is the sentinel, and Outdated with the recorded id otherwise.  A
dependency with no recorded snapshot id is always Invalid. -/
def resolveBase (env : CatalogEnv) (branch : Option String)
    (dep : String × Option Int) : PResult (Table × StorageTableState) :=
  match env.loadTable (stripIdentifierTag dep.1) with
  | .err e => .err e
  | .ok .other => .err (.InvalidFormat ("storage table"))
  | .ok (.matView (.err e)) => .err e
  | .ok (.matView (.ok bt)) => classifyLoaded bt dep.2 branch
  | .ok (.table bt) => classifyLoaded bt dep.2 branch
where
  classifyLoaded (bt : Table) (recorded : Option Int) (branch : Option String) :
      PResult (Table × StorageTableState) :=
    match recorded with
    | some r =>
      match bt.metadata.current_snapshot branch with
      | none => .panic
      | some snap =>
        .ok (bt,
          if snap.snapshot_id = r then .Fresh
          else if r = -1 then .Invalid
          else .Outdated r)
    | none => .ok (bt, .Invalid)

/-- Sequential resolution of all dependencies with fail-fast collection. -/
def resolveAll (env : CatalogEnv) (branch : Option String) :
    List (String × Option Int) → PResult (List (Table × StorageTableState))
  | [] => .ok []
  | d :: ds =>
    match resolveBase env branch d with
    | .panic => .panic
    | .err e => .err e
    | .ok x =>
      match resolveAll env branch ds with
      | .ok xs => .ok (x :: xs)
      | .err e => .err e
      | .panic => .panic

/-- StorageTable::base_tables, embedded from the source: discover the
dependency list, then resolve and classify every dependency in order. -/
def StorageTableModel.base_tables (st : StorageTableModel) (env : CatalogEnv)
    (branch : Option String) : PResult (List (Table × StorageTableState)) :=
  match depsOf st env branch with
  | .err e => .err e
  | .ok deps => resolveAll env branch deps

/-- Outcome of a full_refresh: result, the storage-table handle after the call
(replaced only on full success), the world after the call, and the catalog
state after each catalog call made (by the refresh swap and by the inner
transaction commit). -/
structure RefreshOutcome where
  result : Res Unit
  storage : StorageTableModel
  world : World
  catalogCalls : List CatalogState

/-- StorageTable::full_refresh, embedded from the source: build fresh metadata
preserving format version, location, schemas with current schema id and
partition specs with default spec id (sequence number and snapshot history
start over), write it to a new metadata location, swap the catalog pointer to
it, then open a transaction on the returned table that appends the given files
and stamps the new snapshot's summary with the version-id and base-tables
bookkeeping keys, and commit that transaction; finally replace the in-memory
storage table with the refreshed one.  The fresh location token, transaction
uuid and snapshot id are passed in explicitly (new_metadata_location is not
part of the supplied fragment and is modelled from the spec as a fresh
uniquely-named location under the metadata directory). -/
def fullRefresh (st : StorageTableModel) (files : List String) (version_id : Int)
    (base_tables : List BaseTable) (w : World) (refreshUuid commitUuid : String)
    (freshId : Int) : RefreshOutcome :=
  let m := st.table.metadata
  let freshMeta : TableMetadata :=
    { format_version := m.format_version, location := m.location,
      schemas := m.schemas, current_schema_id := m.current_schema_id,
      partition_specs := m.partition_specs, default_spec_id := m.default_spec_id,
      last_sequence_number := 0, snapshots := [], current_snapshot_id := none }
  let newLoc := m.location ++ "/metadata/" ++ refreshUuid ++ ".metadata.json"
  match putObject w.store newLoc freshMeta with
  | .err e => { result := .err e, storage := st, world := w, catalogCalls := [] }
  | .ok store' =>
    match updateTable w.catalog store' st.table.identifier newLoc
        st.table.metadata_location with
    | .err e =>
      { result := .err e, storage := st,
        world := { store := store', catalog := w.catalog }, catalogCalls := [w.catalog] }
    | .ok (cat', tableMid) =>
      let inner := commitTransaction tableMid
        [.NewAppend files,
         .UpdateProperties
           [(VERSION_KEY, encodeVersionId version_id),
            (BASE_TABLES_KEY, encodeBaseTables base_tables)]]
        { store := store', catalog := cat' } commitUuid freshId
      match inner.result with
      | .err e =>
        { result := .err e, storage := st, world := inner.world,
          catalogCalls := cat' :: inner.catalogCalls }
      | .ok _ =>
        { result := .ok (), storage := { table := inner.table, sql := st.sql },
          world := inner.world, catalogCalls := cat' :: inner.catalogCalls }

/- ---------------------------------------------------------------------------
Concrete instances used to evaluate the model on explicit inputs.
--------------------------------------------------------------------------- -/

/-- A plain table metadata value: sequence number 5, one schema, one
partition spec, no snapshots. -/
def mA : TableMetadata :=
  { format_version := 2, location := "s3://tbl", schemas := [0],
    current_schema_id := 0, partition_specs := [0], default_spec_id := 0,
    last_sequence_number := 5, snapshots := [], current_snapshot_id := none }

/-- A table handle over mA whose metadata file lives at loc0. -/
def tA : Table := { identifier := "tbl1", metadata := mA, metadata_location := "loc0" }

/-- A world in which the catalog pointer has already moved away from loc0, so
any commit expecting loc0 is rejected by the compare-and-swap. -/
def wConflict : World := { store := [], catalog := ⟨"loc1"⟩ }

/-- A world whose catalog pointer still equals loc0, so a commit from tA
succeeds. -/
def wOk : World := { store := [], catalog := ⟨"loc0"⟩ }

/-- A storage table over mA used to exercise full_refresh. -/
def stRefresh : StorageTableModel :=
  { table := tA, sql := "SELECT * FROM db.t1" }

/-- A world for the full_refresh run: the store holds the prior metadata file
and the catalog points at it. -/
def wRefresh : World := { store := [("loc0", mA)], catalog := ⟨"loc0"⟩ }

/-- The full_refresh run used as the explicit input of the atomicity analysis:
one data file, version id 1, one base-table record. -/
def refreshRun : RefreshOutcome :=
  fullRefresh stRefresh ["f1"] 1 [⟨"db.t1", 42⟩] wRefresh "r1" "c1" 7

/-- Metadata of a live base table whose current snapshot id is 42. -/
def mLive42 : TableMetadata :=
  { format_version := 2, location := "s3://base", schemas := [0],
    current_schema_id := 0, partition_specs := [0], default_spec_id := 0,
    last_sequence_number := 9, snapshots := [⟨42, [], []⟩],
    current_snapshot_id := some 42 }

/-- Live base-table handle with current snapshot id 42. -/
def bt42 : Table := { identifier := "db.t1", metadata := mLive42, metadata_location := "locB" }

/-- Metadata of a base table with no current snapshot. -/
def mNoSnap : TableMetadata :=
  { format_version := 2, location := "s3://base2", schemas := [0],
    current_schema_id := 0, partition_specs := [0], default_spec_id := 0,
    last_sequence_number := 9, snapshots := [], current_snapshot_id := none }

/-- Base-table handle with no current snapshot. -/
def btNoSnap : Table :=
  { identifier := "db.t2", metadata := mNoSnap, metadata_location := "locC" }

/-- Storage-table metadata whose current snapshot records one base table with
snapshot id 42 under the base-tables bookkeeping key. -/
def mMv : TableMetadata :=
  { format_version := 2, location := "s3://mv", schemas := [0],
    current_schema_id := 0, partition_specs := [0], default_spec_id := 0,
    last_sequence_number := 3,
    snapshots := [⟨1, [("base-tables", "db.t1,42")], []⟩],
    current_snapshot_id := some 1 }

/-- Storage table whose bookkeeping records base table db.t1 at snapshot 42. -/
def stC : StorageTableModel :=
  { table := { identifier := "mv1", metadata := mMv, metadata_location := "locM" },
    sql := "SELECT * FROM db.t1" }

/-- Catalog environment resolving db.t1 to the live base table bt42. -/
def envC : CatalogEnv :=
  { loadTable := fun s => if s = "db.t1" then .ok (.table bt42) else .err (.NotFound s),
    findRelations := fun _ => .ok [] }

/-- Storage-table metadata whose current snapshot records base table db.t2
(which has no current snapshot) at snapshot id 42. -/
def mMv2 : TableMetadata :=
  { format_version := 2, location := "s3://mv2", schemas := [0],
    current_schema_id := 0, partition_specs := [0], default_spec_id := 0,
    last_sequence_number := 3,
    snapshots := [⟨1, [("base-tables", "db.t2,42")], []⟩],
    current_snapshot_id := some 1 }

/-- Storage table whose bookkeeping records the snapshotless base table. -/
def stD : StorageTableModel :=
  { table := { identifier := "mv2", metadata := mMv2, metadata_location := "locN" },
    sql := "SELECT * FROM db.t2" }

/-- Catalog environment resolving db.t2 to the snapshotless base table. -/
def envD : CatalogEnv :=
  { loadTable := fun s => if s = "db.t2" then .ok (.table btNoSnap) else .err (.NotFound s),
    findRelations := fun _ => .ok [] }

/-- Storage-table metadata whose current snapshot carries a recorded version
id of 7 under the version-id bookkeeping key. -/
def mVer : TableMetadata :=
  { format_version := 2, location := "s3://mv3", schemas := [0],
    current_schema_id := 0, partition_specs := [0], default_spec_id := 0,
    last_sequence_number := 3,
    snapshots := [⟨1, [("version-id", "7")], []⟩],
    current_snapshot_id := some 1 }

/-- Storage table with a recorded version id of 7. -/
def stVer : StorageTableModel :=
  { table := { identifier := "mv3", metadata := mVer, metadata_location := "locV" },
    sql := "SELECT * FROM db.t1" }

/-- Storage table with no current snapshot at all. -/
def stNoSnap : StorageTableModel :=
  { table := btNoSnap, sql := "SELECT * FROM db.t1" }

/-- Storage-table metadata with a current snapshot whose summary has no
bookkeeping keys. -/
def mNoKey : TableMetadata :=
  { format_version := 2, location := "s3://mv4", schemas := [0],
    current_schema_id := 0, partition_specs := [0], default_spec_id := 0,
    last_sequence_number := 3, snapshots := [⟨1, [], []⟩],
    current_snapshot_id := some 1 }

/-- Storage table whose current snapshot records no version id. -/
def stNoKey : StorageTableModel :=
  { table := { identifier := "mv4", metadata := mNoKey, metadata_location := "locW" },
    sql := "SELECT * FROM db.t1" }

/- ---------------------------------------------------------------------------
Lemmas about the byte codec underlying the Namespace encoding.
--------------------------------------------------------------------------- -/

theorem hexVal_hexUpper : ∀ x, x < 16 → hexVal (hexUpper x) = some x := by
  decide

theorem isSafeByte_ranges (b : Nat) (h : isSafeByte b = true) :
    (48 ≤ b ∧ b ≤ 57) ∨ (65 ≤ b ∧ b ≤ 90) ∨ (97 ≤ b ∧ b ≤ 122) ∨
      b = 42 ∨ b = 45 ∨ b = 46 ∨ b = 95 := by
  simp only [isSafeByte, Bool.or_eq_true, Bool.and_eq_true, decide_eq_true_eq,
    beq_iff_eq] at h
  tauto

theorem percentDecodePlus_cons_other (c : Nat) (rest : List Nat)
    (h43 : c ≠ 43) (h37 : c ≠ 37) :
    percentDecodePlus (c :: rest) = c :: percentDecodePlus rest := by
  match rest with
  | [] => simp [percentDecodePlus, h43, h37]
  | [d] => simp [percentDecodePlus, h43, h37]
  | hi :: lo :: rest' => simp [percentDecodePlus, h43, h37]

theorem percentDecodePlus_cons_plus (rest : List Nat) :
    percentDecodePlus (43 :: rest) = 32 :: percentDecodePlus rest := by
  match rest with
  | [] => simp [percentDecodePlus]
  | [d] => simp [percentDecodePlus]
  | hi :: lo :: rest' => simp [percentDecodePlus]

theorem percentDecodePlus_cons_pct (b : Nat) (rest : List Nat) (hb : b < 256) :
    percentDecodePlus (37 :: hexUpper (b / 16) :: hexUpper (b % 16) :: rest)
      = b :: percentDecodePlus rest := by
  have hdiv : b / 16 < 16 := by omega
  have hmod : b % 16 < 16 := by omega
  have h1 := hexVal_hexUpper (b / 16) hdiv
  have h2 := hexVal_hexUpper (b % 16) hmod
  have h4337 : (37 : Nat) ≠ 43 := by decide
  simp only [percentDecodePlus, if_neg h4337, if_pos rfl, h1, h2]
  have hrec : 16 * (b / 16) + b % 16 = b := by omega
  simp [hrec]

theorem decode_encodeByte (b : Nat) (rest : List Nat) (hb : b < 256) :
    percentDecodePlus (encodeByte b ++ rest) = b :: percentDecodePlus rest := by
  by_cases hs : isSafeByte b = true
  · have hr := isSafeByte_ranges b hs
    have h43 : b ≠ 43 := by omega
    have h37 : b ≠ 37 := by omega
    simp only [encodeByte, hs, if_true, List.cons_append, List.nil_append]
    exact percentDecodePlus_cons_other b rest h43 h37
  · by_cases h32 : b = 32
    · subst h32
      simp only [encodeByte, hs, if_false, if_true, Bool.false_eq_true,
        List.cons_append, List.nil_append]
      exact percentDecodePlus_cons_plus rest
    · simp only [encodeByte, hs, h32, if_false, Bool.false_eq_true,
        List.cons_append, List.nil_append]
      exact percentDecodePlus_cons_pct b rest hb

theorem decode_byteSerialize (s : List Nat) (hs : ∀ b ∈ s, b < 256) :
    percentDecodePlus (byteSerialize s) = s := by
  induction s with
  | nil => rfl
  | cons b rest ih =>
    have hb : b < 256 := hs b (List.mem_cons_self b rest)
    have hrest : ∀ x ∈ rest, x < 256 := fun x hx => hs x (List.mem_cons_of_mem b hx)
    simp only [byteSerialize]
    rw [decode_encodeByte b (byteSerialize rest) hb, ih hrest]

theorem encodeByte_no_amp_eq (b : Nat) :
    ∀ c ∈ encodeByte b, (!(c == 38) && !(c == 61)) = true := by
  intro c hc
  by_cases hs : isSafeByte b = true
  · simp only [encodeByte, hs, if_true, List.mem_singleton] at hc
    have hr := isSafeByte_ranges b hs
    have h1 : c ≠ 38 := by omega
    have h2 : c ≠ 61 := by omega
    simp [h1, h2]
  · by_cases h32 : b = 32
    · subst h32
      simp only [encodeByte, hs, if_false, if_true, Bool.false_eq_true,
        List.mem_singleton] at hc
      subst hc
      decide
    · simp only [encodeByte, hs, h32, if_false, Bool.false_eq_true,
        List.mem_cons, List.mem_singleton, List.not_mem_nil, or_false] at hc
      have hup : ∀ x : Nat, hexUpper x ≠ 38 ∧ hexUpper x ≠ 61 := by
        intro x
        unfold hexUpper
        by_cases hx : x < 10 <;> simp [hx] <;> omega
      rcases hc with hc | hc | hc
      · subst hc; decide
      · subst hc
        have := hup (b / 16)
        simp [this.1, this.2]
      · subst hc
        have := hup (b % 16)
        simp [this.1, this.2]

theorem byteSerialize_no_amp_eq (s : List Nat) :
    ∀ c ∈ byteSerialize s, (!(c == 38) && !(c == 61)) = true := by
  induction s with
  | nil => intro c hc; cases hc
  | cons b rest ih =>
    intro c hc
    simp only [byteSerialize, List.mem_append] at hc
    rcases hc with hc | hc
    · exact encodeByte_no_amp_eq b c hc
    · exact ih c hc

theorem takeWhile_of_all {α : Type} (p : α → Bool) (l : List α)
    (h : ∀ c ∈ l, p c = true) : l.takeWhile p = l := by
  induction l with
  | nil => rfl
  | cons a rest ih =>
    have ha := h a (List.mem_cons_self a rest)
    simp only [List.takeWhile_cons, ha, if_true]
    rw [ih (fun c hc => h c (List.mem_cons_of_mem a hc))]

theorem encodeByte_ne_nil (b : Nat) : encodeByte b ≠ [] := by
  unfold encodeByte
  by_cases hs : isSafeByte b = true
  · simp [hs]
  · by_cases h32 : b = 32
    · subst h32
      decide
    · simp [hs, h32]

theorem firstPair_byteSerialize (s : List Nat) (hs : ∀ b ∈ s, b < 256)
    (hne : s ≠ []) : firstPair (byteSerialize s) = some s := by
  have hser : byteSerialize s ≠ [] := by
    match s, hne with
    | b :: rest, _ =>
      simp only [byteSerialize]
      intro hG
      exact encodeByte_ne_nil b (List.append_eq_nil.mp hG).1
  match hE : byteSerialize s with
  | [] => exact absurd hE hser
  | c :: rest =>
    have hcmem : c ∈ byteSerialize s := by rw [hE]; exact List.mem_cons_self c rest
    have hcp := byteSerialize_no_amp_eq s c hcmem
    have hc38 : c ≠ 38 := by
      intro h; subst h; simp at hcp
    have htake : (c :: rest).takeWhile (fun b => !(b == 38) && !(b == 61)) = c :: rest := by
      apply takeWhile_of_all
      intro x hx
      exact byteSerialize_no_amp_eq s x (by rw [hE]; exact hx)
    simp only [firstPair, hc38, if_false, htake]
    rw [← hE, decode_byteSerialize s hs]

theorem splitSep_ne_nil (sep : Nat) (l : List Nat) : splitSep sep l ≠ [] := by
  match l with
  | [] => simp [splitSep]
  | c :: rest =>
    simp only [splitSep]
    match splitSep sep rest with
    | [] => simp
    | h :: t =>
      by_cases hc : c = sep <;> simp [hc]

theorem splitSep_no_sep (sep : Nat) (l : List Nat) (h : sep ∉ l) :
    splitSep sep l = [l] := by
  induction l with
  | nil => rfl
  | cons c rest ih =>
    have hc : c ≠ sep := fun hE => h (hE ▸ List.mem_cons_self c rest)
    have hrest : sep ∉ rest := fun hm => h (List.mem_cons_of_mem c hm)
    simp only [splitSep, ih hrest]
    simp [hc]

theorem splitSep_append (sep : Nat) (l t : List Nat) (h : sep ∉ l) :
    splitSep sep (l ++ sep :: t) = l :: splitSep sep t := by
  induction l with
  | nil =>
    simp only [List.nil_append, splitSep]
    match hE : splitSep sep t with
    | [] => exact absurd hE (splitSep_ne_nil sep t)
    | h' :: t' => simp
  | cons c rest ih =>
    have hc : c ≠ sep := fun hE => h (hE ▸ List.mem_cons_self c rest)
    have hrest : sep ∉ rest := fun hm => h (List.mem_cons_of_mem c hm)
    simp only [List.cons_append, splitSep, List.append_eq]
    rw [ih hrest]
    simp [hc]

theorem splitSep_joinSep (sep : Nat) (ls : List (List Nat)) (hne : ls ≠ [])
    (h : ∀ l ∈ ls, sep ∉ l) : splitSep sep (joinSep sep ls) = ls := by
  induction ls with
  | nil => exact absurd rfl hne
  | cons l rest ih =>
    match rest with
    | [] =>
      simp only [joinSep]
      exact splitSep_no_sep sep l (h l (List.mem_cons_self l []))
    | l' :: rest' =>
      simp only [joinSep]
      rw [splitSep_append sep l (joinSep sep (l' :: rest'))
        (h l (List.mem_cons_self l (l' :: rest')))]
      rw [ih (by simp) (fun x hx => h x (List.mem_cons_of_mem l hx))]

theorem mem_joinSep (sep : Nat) (ls : List (List Nat)) (b : Nat)
    (hb : b ∈ joinSep sep ls) : b = sep ∨ ∃ l ∈ ls, b ∈ l := by
  induction ls with
  | nil => cases hb
  | cons l rest ih =>
    rcases rest with _ | ⟨l', rest'⟩
    · simp only [joinSep] at hb
      exact Or.inr ⟨l, by simp, hb⟩
    · simp only [joinSep, List.mem_append, List.mem_cons] at hb
      rcases hb with hb | hb | hb
      · exact Or.inr ⟨l, by simp, hb⟩
      · exact Or.inl hb
      · rcases ih hb with hs | ⟨x, hx, hbx⟩
        · exact Or.inl hs
        · exact Or.inr ⟨x, List.mem_cons_of_mem l hx, hbx⟩

theorem joinSep_ne_nil (sep : Nat) (ls : List (List Nat)) (hne : ls ≠ [])
    (hl : ∀ l ∈ ls, l ≠ []) : joinSep sep ls ≠ [] := by
  match ls, hne with
  | [l], _ =>
    simpa [joinSep] using hl l (by simp)
  | l :: l' :: rest, _ =>
    simp [joinSep]

/- ---------------------------------------------------------------------------
Claims about the Namespace value type.
--------------------------------------------------------------------------- -/

/-- C8: for every sequence of strings given to Namespace::try_new,
construction returns an error if and only if at least one string in the
sequence is the empty string; otherwise it returns a Namespace holding
exactly that sequence. -/
theorem c8_try_new_empty_level (ls : List (List Nat)) :
    ((∃ l ∈ ls, l = []) →
      Namespace.try_new ls = .err (.InvalidFormat ("namespace sequence"))) ∧
    ((∀ l ∈ ls, l ≠ []) → Namespace.try_new ls = .ok ⟨ls⟩) := by
  constructor
  · intro ⟨l, hl, hempty⟩
    have hany : ls.any (fun l => l.isEmpty) = true := by
      rw [List.any_eq_true]
      exact ⟨l, hl, by simp [hempty]⟩
    simp [Namespace.try_new, hany]
  · intro hall
    have hany : ls.any (fun l => l.isEmpty) = false := by
      rw [List.any_eq_false]
      intro l hl
      simp [hall l hl]
    simp [Namespace.try_new, hany]

/-- C8 witness: evaluated at a sequence with an empty level and at one
without. -/
theorem c8_try_new_witness :
    Namespace.try_new [[], [97]] = .err (.InvalidFormat ("namespace sequence")) ∧
    Namespace.try_new [[97]] = .ok ⟨[[97]]⟩ :=
  ⟨(c8_try_new_empty_level [[], [97]]).1 ⟨[], by simp, rfl⟩,
   (c8_try_new_empty_level [[97]]).2 (by decide)⟩

/-- C6 counterexample: the claim states that every construction path, the
decoded-token path from_url_encoded included, fails rather than yield a
Namespace with an empty level.  Decoding the token percent-1-F (a single
percent-encoded unit-separator byte) succeeds and yields a Namespace with
two empty levels. -/
theorem c6_from_url_encoded_empty_levels :
    Namespace.from_url_encoded [37, 49, 70] = .ok ⟨[[], []]⟩ ∧
    ((⟨[[], []]⟩ : Namespace).levels.all (fun l => !l.isEmpty)) = false := by
  decide

/-- C6 amended: the try_new and empty construction paths maintain the
no-empty-level invariant (try_new fails instead of producing an empty level,
and the empty namespace has no levels); from_url_encoded performs no such
validation and can produce empty levels. -/
theorem c6_invariant_try_new_empty (ls : List (List Nat)) (ns : Namespace)
    (hok : Namespace.try_new ls = .ok ns) :
    (ns.levels.all (fun l => !l.isEmpty)) = true ∧
    (Namespace.empty.levels.all (fun l => !l.isEmpty)) = true := by
  refine ⟨?_, by decide⟩
  unfold Namespace.try_new at hok
  by_cases hany : ls.any (fun l => l.isEmpty)
  · simp [hany] at hok
  · simp only [hany, if_false, Bool.false_eq_true] at hok
    cases hok
    rw [List.all_eq_true]
    intro l hl
    have := List.any_eq_false.mp (Bool.not_eq_true _ ▸ hany) l hl
    simpa using this

/-- C6 witness: the amended invariant evaluated at a concrete try_new
construction. -/
theorem c6_invariant_witness :
    ((⟨[[97]]⟩ : Namespace).levels.all (fun l => !l.isEmpty)) = true ∧
    (Namespace.empty.levels.all (fun l => !l.isEmpty)) = true :=
  c6_invariant_try_new_empty [[97]] ⟨[[97]]⟩ (by decide)

/-- C7 counterexample: the claim covers every Namespace produced by try_new
or by empty(), but decoding the encoding of the empty namespace fails: the
empty namespace encodes to the empty token, whose parse yields no pair. -/
theorem c7_empty_roundtrip_fails :
    Namespace.from_url_encoded (Namespace.url_encode Namespace.empty)
      = .err (.InvalidFormat ("Namespace is empty")) := by
  decide

/-- C7 amended: for every Namespace produced by a successful try_new from a
nonempty sequence of byte-string levels none of which contains the
unit-separator byte 31, from_url_encoded after url_encode succeeds and
returns the same Namespace.  (The round trip fails for the empty namespace,
and a level containing the separator byte is re-split at it.) -/
theorem c7_url_roundtrip (ls : List (List Nat)) (ns : Namespace)
    (hne : ls ≠ [])
    (hbytes : ∀ l ∈ ls, ∀ b ∈ l, b < 256)
    (hsep : ∀ l ∈ ls, 31 ∉ l)
    (hok : Namespace.try_new ls = .ok ns) :
    Namespace.from_url_encoded (Namespace.url_encode ns) = .ok ns := by
  have hlevels : ∀ l ∈ ls, l ≠ [] := by
    intro l hl hcon
    unfold Namespace.try_new at hok
    have hany : ls.any (fun l => l.isEmpty) = true := by
      rw [List.any_eq_true]
      exact ⟨l, hl, by simp [hcon]⟩
    simp [hany] at hok
  have hns : ns = ⟨ls⟩ := by
    unfold Namespace.try_new at hok
    by_cases hany : ls.any (fun l => l.isEmpty)
    · simp [hany] at hok
    · simp only [hany, if_false, Bool.false_eq_true] at hok
      cases hok
      rfl
  subst hns
  unfold Namespace.url_encode Namespace.from_url_encoded
  have hjba : ∀ b ∈ joinSep 31 ls, b < 256 := by
    intro b hb
    rcases mem_joinSep 31 ls b hb with hb31 | ⟨l, hl, hbl⟩
    · omega
    · exact hbytes l hl b hbl
  have hjne : joinSep 31 ls ≠ [] := joinSep_ne_nil 31 ls hne hlevels
  rw [firstPair_byteSerialize (joinSep 31 ls) hjba hjne]
  simp only [splitSep_joinSep 31 ls hne hsep]

/-- C7 witness: the amended round trip evaluated at a concrete two-level
namespace. -/
theorem c7_url_roundtrip_witness :
    Namespace.from_url_encoded (Namespace.url_encode ⟨[[100], [98, 99]]⟩)
      = .ok ⟨[[100], [98, 99]]⟩ :=
  c7_url_roundtrip [[100], [98, 99]] ⟨[[100], [98, 99]]⟩ (by decide) (by decide)
    (by decide) (by decide)

/- ---------------------------------------------------------------------------
Lemmas about the commit protocol.
--------------------------------------------------------------------------- -/

theorem execute_preserves_seq (op : Operation) (m m' : TableMetadata)
    (h : op.execute m = .ok m') :
    m'.last_sequence_number = m.last_sequence_number := by
  cases op with
  | UpdateSchema sid =>
    simp only [Operation.execute] at h
    cases h
    rfl
  | UpdateSpec i =>
    simp only [Operation.execute] at h
    by_cases hc : m.partition_specs.any (fun j => decide (j = i))
    · simp only [hc, if_true] at h
      cases h
      rfl
    · simp [hc] at h
  | NewAppend paths =>
    simp only [Operation.execute] at h
    cases hc : m.current_snapshot_id with
    | some cid =>
      simp only [hc] at h
      cases h
      rfl
    | none => simp [hc] at h
  | UpdateProperties entries =>
    simp only [Operation.execute] at h
    cases hc : m.current_snapshot_id with
    | some cid =>
      simp only [hc] at h
      cases h
      rfl
    | none => simp [hc] at h

theorem execOps_preserves_seq (ops : List Operation) (m : TableMetadata) :
    (execOps ops m).2.last_sequence_number = m.last_sequence_number := by
  induction ops generalizing m with
  | nil => rfl
  | cons op rest ih =>
    simp only [execOps]
    cases hE : op.execute m with
    | ok m' =>
      simp only [hE]
      exact (ih m').trans (execute_preserves_seq op m m' hE)
    | err e => simp only [hE]

theorem commitStage_seq (t : Table) (ops : List Operation) (fid : Int) :
    (commitStage t ops fid).metadata.last_sequence_number
      = t.metadata.last_sequence_number + 1 := by
  unfold commitStage Table.new_snapshot
  by_cases h : ops.any (fun op => op.isNewAppend) <;> simp [h]

theorem execOps_append_none (xs ys : List Operation) (m m' : TableMetadata)
    (h : execOps xs m = (none, m')) :
    execOps (xs ++ ys) m = execOps ys m' := by
  induction xs generalizing m with
  | nil =>
    simp only [execOps] at h
    cases h
    simp
  | cons op rest ih =>
    simp only [execOps, List.cons_append] at h ⊢
    cases hE : op.execute m with
    | ok m1 =>
      simp only [hE] at h ⊢
      exact ih m1 h
    | err e =>
      simp only [hE] at h
      cases h

theorem getObject_after_put (store store' : Store) (loc : String) (m : TableMetadata)
    (h : putObject store loc m = .ok store') : getObject store' loc = some m := by
  unfold putObject at h
  by_cases hex : (store : List (String × TableMetadata)).any (fun p => decide (p.1 = loc))
  · simp [hex] at h
  · simp only [hex, if_false, Bool.false_eq_true] at h
    cases h
    unfold getObject
    simp [List.find?]

theorem updateTable_ok (cat : CatalogState) (store : Store)
    (identifier newLoc prevLoc : String) (cat' : CatalogState) (ntab : Table)
    (h : updateTable cat store identifier newLoc prevLoc = .ok (cat', ntab)) :
    cat.pointer = prevLoc ∧ cat' = ⟨newLoc⟩ ∧ ntab.identifier = identifier ∧
      ntab.metadata_location = newLoc ∧ getObject store newLoc = some ntab.metadata := by
  unfold updateTable at h
  by_cases hp : cat.pointer = prevLoc
  · simp only [hp, if_true] at h
    cases hG : getObject store newLoc with
    | none => simp [hG] at h
    | some mm =>
      simp only [hG] at h
      cases h
      exact ⟨hp, rfl, rfl, rfl, rfl⟩
  · simp [hp] at h

theorem commit_cases (t : Table) (ops : List Operation) (w : World)
    (uuid : String) (fid : Int) :
    (∃ e m', execOps ops (commitStage t ops fid).metadata = (some e, m') ∧
      commitTransaction t ops w uuid fid =
        ⟨.err e, { commitStage t ops fid with metadata := m' }, w, []⟩) ∨
    (∃ m' e, execOps ops (commitStage t ops fid).metadata = (none, m') ∧
      putObject w.store (metadataFileLocation m' uuid) m' = .err e ∧
      commitTransaction t ops w uuid fid =
        ⟨.err e, { commitStage t ops fid with metadata := m' }, w, []⟩) ∨
    (∃ m' store' e, execOps ops (commitStage t ops fid).metadata = (none, m') ∧
      putObject w.store (metadataFileLocation m' uuid) m' = .ok store' ∧
      updateTable w.catalog store' t.identifier (metadataFileLocation m' uuid)
        (commitStage t ops fid).metadata_location = .err e ∧
      commitTransaction t ops w uuid fid =
        ⟨.err e, { commitStage t ops fid with metadata := m' },
          ⟨store', w.catalog⟩, [w.catalog]⟩) ∨
    (∃ m' store' cat' ntab, execOps ops (commitStage t ops fid).metadata = (none, m') ∧
      putObject w.store (metadataFileLocation m' uuid) m' = .ok store' ∧
      updateTable w.catalog store' t.identifier (metadataFileLocation m' uuid)
        (commitStage t ops fid).metadata_location = .ok (cat', ntab) ∧
      commitTransaction t ops w uuid fid =
        ⟨.ok (), ntab, ⟨store', cat'⟩, [cat']⟩) := by
  unfold commitTransaction
  cases hE : execOps ops (commitStage t ops fid).metadata with
  | mk oe m' =>
    cases oe with
    | some e =>
      exact Or.inl ⟨e, m', rfl, by simp only [hE]⟩
    | none =>
      cases hP : putObject w.store (metadataFileLocation m' uuid) m' with
      | err e =>
        exact Or.inr (Or.inl ⟨m', e, rfl, hP, by simp only [hE, hP]⟩)
      | ok store' =>
        cases hU : updateTable w.catalog store' t.identifier
            (metadataFileLocation m' uuid) (commitStage t ops fid).metadata_location with
        | err e =>
          exact Or.inr (Or.inr (Or.inl ⟨m', store', e, rfl, hP, hU,
            by simp only [hE, hP, hU]⟩))
        | ok pair =>
          exact Or.inr (Or.inr (Or.inr ⟨m', store', pair.1, pair.2, rfl, hP,
            by rw [hU], by simp only [hE, hP, hU]⟩))

/- ---------------------------------------------------------------------------
Claims about the commit protocol.
--------------------------------------------------------------------------- -/

/-- C5: for every Transaction commit that succeeds, the table metadata's last
sequence number after the commit equals the sequence number before the commit
plus one, regardless of how many operations were queued (including zero). -/
theorem c5_commit_seq (t : Table) (ops : List Operation) (w : World)
    (uuid : String) (fid : Int)
    (h : (commitTransaction t ops w uuid fid).result = .ok ()) :
    (commitTransaction t ops w uuid fid).table.metadata.last_sequence_number
      = t.metadata.last_sequence_number + 1 := by
  rcases commit_cases t ops w uuid fid with
    ⟨e, m', hE, hC⟩ | ⟨m', e, hE, hP, hC⟩ | ⟨m', store', e, hE, hP, hU, hC⟩ |
    ⟨m', store', cat', ntab, hE, hP, hU, hC⟩
  · rw [hC] at h
    cases h
  · rw [hC] at h
    cases h
  · rw [hC] at h
    cases h
  · rw [hC]
    have hshape := updateTable_ok w.catalog store' t.identifier
      (metadataFileLocation m' uuid) (commitStage t ops fid).metadata_location
      cat' ntab hU
    have hget := getObject_after_put w.store store' (metadataFileLocation m' uuid) m' hP
    have hmeta : ntab.metadata = m' := by
      have := hshape.2.2.2.2
      rw [hget] at this
      cases this
      rfl
    have hseq := execOps_preserves_seq ops (commitStage t ops fid).metadata
    rw [hE] at hseq
    simp only [hmeta]
    rw [hseq, commitStage_seq]

/-- C5 witness: a successful commit of an empty operation queue, evaluated at
sequence number 5. -/
theorem c5_commit_seq_witness :
    (commitTransaction tA [] wOk ("u1") 0).table.metadata.last_sequence_number
      = tA.metadata.last_sequence_number + 1 :=
  c5_commit_seq tA [] wOk ("u1") 0 (by decide)

/-- C4: for every Transaction commit in which some queued operation's
execution fails, commit returns that operation's error without performing any
object-store write and without any catalog call (the world is unchanged and
the list of catalog calls is empty), and no operation queued after the
failing one is executed: the resulting handle carries exactly the metadata
reached by the staging steps and the operations before the failing one. -/
theorem c4_commit_op_failure (t : Table) (pre post : List Operation)
    (bad : Operation) (w : World) (uuid : String) (fid : Int) (e : Error)
    (m1 : TableMetadata)
    (h1 : execOps pre (commitStage t (pre ++ bad :: post) fid).metadata = (none, m1))
    (h2 : bad.execute m1 = .err e) :
    commitTransaction t (pre ++ bad :: post) w uuid fid =
      ⟨.err e, { commitStage t (pre ++ bad :: post) fid with metadata := m1 },
        w, []⟩ := by
  have hAll : execOps (pre ++ bad :: post)
      (commitStage t (pre ++ bad :: post) fid).metadata = (some e, m1) := by
    rw [execOps_append_none pre (bad :: post) _ m1 h1]
    simp only [execOps, h2]
  unfold commitTransaction
  simp only [hAll]

/-- C4 witness: an UpdateSpec with an unknown spec id queued before another
operation fails the commit with a format error, leaves the world untouched,
makes no catalog call, and the trailing operation is not applied. -/
theorem c4_commit_op_failure_witness :
    commitTransaction tA ([] ++ Operation.UpdateSpec 99 :: [Operation.UpdateSchema 7])
        wOk ("u1") 0 =
      ⟨.err (.InvalidFormat ("unknown partition spec id")),
        { commitStage tA ([] ++ Operation.UpdateSpec 99 :: [Operation.UpdateSchema 7]) 0
            with metadata :=
              (commitStage tA
                ([] ++ Operation.UpdateSpec 99 :: [Operation.UpdateSchema 7]) 0).metadata },
        wOk, []⟩ :=
  c4_commit_op_failure tA [] [Operation.UpdateSchema 7] (Operation.UpdateSpec 99)
    wOk ("u1") 0 (.InvalidFormat ("unknown partition spec id")) _ rfl (by decide)

/-- C1: the claim states that after a failed catalog swap the caller's Table
metadata is unchanged by value.  The code mutates the table through its
mutable reference before the swap, and a rejected swap does not restore it:
at a concrete input whose catalog pointer has moved, commit returns a
conflict error while the caller's handle carries the incremented sequence
number, so its metadata differs by value from its pre-commit state. -/
theorem c1_commit_conflict_leaves_mutation :
    (commitTransaction tA [] wConflict ("u1") 0).result
        = .err (.Conflict ("pointer moved")) ∧
    (commitTransaction tA [] wConflict ("u1") 0).table.metadata.last_sequence_number
        = tA.metadata.last_sequence_number + 1 ∧
    (commitTransaction tA [] wConflict ("u1") 0).table.metadata ≠ tA.metadata := by
  decide

/-- C2 counterexample: the claim covers full_refresh, but a successful
full_refresh performs two catalog swaps.  At a concrete input the run
succeeds, yet the observable catalog states are not all equal to the prior
location or to the final location: between the swaps the catalog points at
the intermediate refresh metadata, which holds no snapshots at all (the file
append and the bookkeeping stamping have not taken effect there). -/
theorem c2_full_refresh_intermediate :
    refreshRun.result = .ok () ∧
    ¬ (∀ c ∈ wRefresh.catalog :: refreshRun.catalogCalls,
        c.pointer = wRefresh.catalog.pointer ∨
          c.pointer = refreshRun.world.catalog.pointer) ∧
    (getObject refreshRun.world.store ("s3://tbl/metadata/r1.metadata.json")).map
      (fun m => m.snapshots) = some [] := by
  refine ⟨by decide, ?_, by decide⟩
  intro hAll
  have hmid := hAll ⟨"s3://tbl/metadata/r1.metadata.json"⟩ (by decide)
  revert hmid
  decide

/-- C2 amended: for Transaction commit the property holds as claimed: at
every externally observable point the catalog state either still carries the
prior pointer, or the commit succeeded and the pointer is the location of the
fully-formed new metadata — the metadata on which all of steps 1 to 3 have
been applied, which is exactly the metadata of the returned table.  (For
full_refresh the property fails: its two catalog swaps expose an intermediate
state without the appended files and bookkeeping, as the counterexample
shows.) -/
theorem c2_commit_atomic_visibility (t : Table) (ops : List Operation) (w : World)
    (uuid : String) (fid : Int) :
    ∀ c ∈ w.catalog :: (commitTransaction t ops w uuid fid).catalogCalls,
      c.pointer = w.catalog.pointer ∨
      ((commitTransaction t ops w uuid fid).result = .ok () ∧
       getObject (commitTransaction t ops w uuid fid).world.store c.pointer
         = some (commitTransaction t ops w uuid fid).table.metadata ∧
       execOps ops (commitStage t ops fid).metadata
         = (none, (commitTransaction t ops w uuid fid).table.metadata)) := by
  intro c hc
  rcases commit_cases t ops w uuid fid with
    ⟨e, m', hE, hC⟩ | ⟨m', e, hE, hP, hC⟩ | ⟨m', store', e, hE, hP, hU, hC⟩ |
    ⟨m', store', cat', ntab, hE, hP, hU, hC⟩
  · rw [hC] at hc
    simp only [List.mem_cons, List.not_mem_nil, or_false] at hc
    exact Or.inl (hc ▸ rfl)
  · rw [hC] at hc
    simp only [List.mem_cons, List.not_mem_nil, or_false] at hc
    exact Or.inl (hc ▸ rfl)
  · rw [hC] at hc
    simp only [List.mem_cons, List.not_mem_nil, or_false] at hc
    rcases hc with hc | hc
    · exact Or.inl (hc ▸ rfl)
    · exact Or.inl (hc ▸ rfl)
  · rw [hC] at hc ⊢
    simp only [List.mem_cons, List.not_mem_nil, or_false] at hc
    rcases hc with hc | hc
    · exact Or.inl (hc ▸ rfl)
    · have hshape := updateTable_ok w.catalog store' t.identifier
        (metadataFileLocation m' uuid) (commitStage t ops fid).metadata_location
        cat' ntab hU
      have hget := getObject_after_put w.store store' (metadataFileLocation m' uuid) m' hP
      have hmeta : ntab.metadata = m' := by
        have hx := hshape.2.2.2.2
        rw [hget] at hx
        cases hx
        rfl
      rw [hc]
      refine Or.inr ⟨rfl, ?_, ?_⟩
      · rw [hshape.2.1]
        exact hshape.2.2.2.2
      · rw [hmeta]
        exact hE

/-- C2 witness: the commit-visibility property applied at a successful
concrete commit, at the observable point after the swap. -/
theorem c2_commit_atomic_visibility_witness :
    (CatalogState.mk ("s3://tbl/metadata/6-u1.metadata.json")).pointer
        = wOk.catalog.pointer ∨
      ((commitTransaction tA [] wOk ("u1") 0).result = .ok () ∧
       getObject (commitTransaction tA [] wOk ("u1") 0).world.store
           (CatalogState.mk ("s3://tbl/metadata/6-u1.metadata.json")).pointer
         = some (commitTransaction tA [] wOk ("u1") 0).table.metadata ∧
       execOps [] (commitStage tA [] 0).metadata
         = (none, (commitTransaction tA [] wOk ("u1") 0).table.metadata)) :=
  c2_commit_atomic_visibility tA [] wOk ("u1") 0
    ⟨"s3://tbl/metadata/6-u1.metadata.json"⟩ (by decide)

/- ---------------------------------------------------------------------------
Lemmas about dependency resolution in base_tables.
--------------------------------------------------------------------------- -/

theorem resolveBase_recorded (env : CatalogEnv) (branch : Option String)
    (ptr : String) (r : Int) (bt : Table) (snap : Snapshot)
    (hload : env.loadTable (stripIdentifierTag ptr) = .ok (.table bt))
    (hsnap : bt.metadata.current_snapshot branch = some snap) :
    resolveBase env branch (ptr, some r) =
      .ok (bt, if snap.snapshot_id = r then .Fresh
        else if r = -1 then .Invalid else .Outdated r) := by
  simp only [resolveBase, hload, resolveBase.classifyLoaded, hsnap]

theorem resolveBase_recorded_nosnap (env : CatalogEnv) (branch : Option String)
    (ptr : String) (r : Int) (bt : Table)
    (hload : env.loadTable (stripIdentifierTag ptr) = .ok (.table bt))
    (hnone : bt.metadata.current_snapshot branch = none) :
    resolveBase env branch (ptr, some r) = .panic := by
  simp only [resolveBase, hload, resolveBase.classifyLoaded, hnone]

theorem resolveBase_fallback (env : CatalogEnv) (branch : Option String)
    (ptr : String) (bt : Table)
    (hload : env.loadTable (stripIdentifierTag ptr) = .ok (.table bt)) :
    resolveBase env branch (ptr, none) = .ok (bt, .Invalid) := by
  simp only [resolveBase, hload, resolveBase.classifyLoaded]

/- ---------------------------------------------------------------------------
Claims about the staleness protocol.
--------------------------------------------------------------------------- -/

/-- C3: for every dependency classified by base_tables, in the precedence
order of the source: a recorded snapshot id equal to the base table's live
current snapshot id gives Fresh (also when both equal the sentinel); an
unequal recorded id equal to the sentinel gives Invalid; any other recorded
id gives Outdated carrying the recorded id; and a dependency discovered via
the query-text fallback, with no recorded snapshot id, is always Invalid. -/
theorem c3_classification :
    (∀ (st : StorageTableModel) (env : CatalogEnv) (branch : Option String)
       (ptr : String) (r : Int) (bt : Table) (snap : Snapshot),
       depsOf st env branch = .ok [(ptr, some r)] →
       env.loadTable (stripIdentifierTag ptr) = .ok (.table bt) →
       bt.metadata.current_snapshot branch = some snap →
       ∃ s, st.base_tables env branch = .ok [(bt, s)] ∧
         (snap.snapshot_id = r → s = .Fresh) ∧
         (snap.snapshot_id ≠ r → r = -1 → s = .Invalid) ∧
         (snap.snapshot_id ≠ r → r ≠ -1 → s = .Outdated r)) ∧
    (∀ (st : StorageTableModel) (env : CatalogEnv) (branch : Option String)
       (ptr : String) (bt : Table),
       depsOf st env branch = .ok [(ptr, none)] →
       env.loadTable (stripIdentifierTag ptr) = .ok (.table bt) →
       st.base_tables env branch = .ok [(bt, .Invalid)]) := by
  constructor
  · intro st env branch ptr r bt snap hdeps hload hsnap
    refine ⟨if snap.snapshot_id = r then .Fresh
      else if r = -1 then .Invalid else .Outdated r, ?_, ?_, ?_, ?_⟩
    · unfold StorageTableModel.base_tables
      rw [hdeps]
      simp only [resolveAll]
      rw [resolveBase_recorded env branch ptr r bt snap hload hsnap]
    · intro h
      simp [h]
    · intro h1 h2
      subst h2
      simp [h1]
    · intro h1 h2
      simp [h1, h2]
  · intro st env branch ptr bt hdeps hload
    unfold StorageTableModel.base_tables
    rw [hdeps]
    simp only [resolveAll]
    rw [resolveBase_fallback env branch ptr bt hload]

/-- C3 witness: the recorded path evaluated where the recorded and live ids
are both 42, yielding Fresh. -/
theorem c3_classification_witness :
    stC.base_tables envC none = .ok [(bt42, .Fresh)] := by
  obtain ⟨s, hs, hf, _, _⟩ := c3_classification.1 stC envC none ("db.t1") 42 bt42
    ⟨42, [], []⟩ (by decide) (by decide) (by decide)
  have hsF : s = .Fresh := hf rfl
  rw [hsF] at hs
  exact hs

/-- C9: for every StorageTable and branch, version_id returns Ok None — not
an error — both when the table has no current snapshot and when the current
snapshot's summary lacks the version-id bookkeeping key; when the key is
present and decodes, it returns the decoded version id. -/
theorem c9_version_id_absent_ok :
    (∀ (st : StorageTableModel) (branch : Option String),
       st.table.metadata.current_snapshot branch = none →
       st.version_id branch = .ok none) ∧
    (∀ (st : StorageTableModel) (branch : Option String) (snap : Snapshot),
       st.table.metadata.current_snapshot branch = some snap →
       lookupKey snap.summary VERSION_KEY = none →
       st.version_id branch = .ok none) ∧
    (∀ (st : StorageTableModel) (branch : Option String) (snap : Snapshot)
       (j : String) (v : Int),
       st.table.metadata.current_snapshot branch = some snap →
       lookupKey snap.summary VERSION_KEY = some j →
       decodeVersionId j = .ok v →
       st.version_id branch = .ok (some v)) := by
  refine ⟨?_, ?_, ?_⟩
  · intro st branch h
    simp only [StorageTableModel.version_id, h]
  · intro st branch snap h1 h2
    simp only [StorageTableModel.version_id, h1, h2]
  · intro st branch snap j v h1 h2 h3
    simp only [StorageTableModel.version_id, h1, h2, h3]

/-- C9 witness: evaluated at a storage table with no current snapshot, one
whose snapshot lacks the key, and one whose snapshot records version id 7. -/
theorem c9_version_id_witness :
    stNoSnap.version_id none = .ok none ∧
    stNoKey.version_id none = .ok none ∧
    stVer.version_id none = .ok (some 7) :=
  ⟨c9_version_id_absent_ok.1 stNoSnap none (by decide),
   c9_version_id_absent_ok.2.1 stNoKey none ⟨1, [], []⟩ (by decide) (by decide),
   c9_version_id_absent_ok.2.2 stVer none ⟨1, [("version-id", "7")], []⟩ ("7") 7
     (by decide) (by decide) (by decide)⟩

/-- C10: base_tables is partial at its public interface: for a dependency
carrying a recorded snapshot id, the resolved base table's current snapshot
is unwrapped without a None check, so when the resolved base table has no
current snapshot the call panics instead of returning an error result. -/
theorem c10_base_tables_unwrap_panics (st : StorageTableModel) (env : CatalogEnv)
    (branch : Option String) (ptr : String) (r : Int)
    (rest : List (String × Option Int)) (bt : Table)
    (hdeps : depsOf st env branch = .ok ((ptr, some r) :: rest))
    (hload : env.loadTable (stripIdentifierTag ptr) = .ok (.table bt))
    (hnone : bt.metadata.current_snapshot branch = none) :
    st.base_tables env branch = .panic := by
  unfold StorageTableModel.base_tables
  rw [hdeps]
  simp only [resolveAll]
  rw [resolveBase_recorded_nosnap env branch ptr r bt hload hnone]

/-- C10 witness: evaluated where the bookkeeping records snapshot 42 for a
base table that has no current snapshot. -/
theorem c10_base_tables_unwrap_panics_witness :
    stD.base_tables envD none = .panic :=
  c10_base_tables_unwrap_panics stD envD none ("db.t2") 42 [] btNoSnap
    (by decide) (by decide) (by decide)
